import Mathlib

/-!
Shallow embedding of the plot-grid manager of EasyDataCharts
(`src/MplCanvas.py`), together with proofs about its layout,
rendering and error behaviour.

Modelling conventions:
* a pandas DataFrame is represented by its ordered list of column names
  (the numeric cell values play no role in any property considered here:
  every series is identified by the names of the columns it draws);
* a matplotlib `Axes` is the list of series drawn on it plus its
  formatting state; `fig.get_axes()` is a list of axes in addition
  order, each carrying the grid cell its subplotspec assigns;
* an axes reference held by a `DataHolder` is the index of that axes in
  the figure's addition-order list;
* a Python `dict` is an insertion-ordered association list;
* a raised exception is modelled by the `Bool` component `false` of a
  `Canvas × Bool` result, the `Canvas` component being the state the
  object was left in when the exception escaped.
-/

namespace EasyDataCharts


/-- Style of a drawn series: `ax.plot` (line, marker) or `ax.scatter`. -/
inductive Mark where
  | line
  | scatter
deriving DecidableEq, Repr

/-- One series drawn on an axes: the x-column name, the y-column name,
the legend label, and the drawing primitive used. -/
structure Series where
  x : String
  y : String
  label : String
  mark : Mark
deriving DecidableEq, Repr

/-- State of one matplotlib axes: the series drawn on it, in drawing
order, and the formatting set by `format_plot`. -/
structure Axes where
  series : List Series
  title : String
  xlabel : String
  ylabel : String
  legend : Bool
  grid : Bool
deriving DecidableEq, Repr

/-- A freshly created (or `cla()`-cleared) axes. -/
def emptyAxes : Axes := ⟨[], "", "", "", false, false⟩

/-- Body of the per-column loop in `__plot_paired` / `__plot_unpaired`
(`src/MplCanvas.py` lines 156-159 and 174-177): `type == 0` draws a line
series, `type == 1` a scatter series, any other value draws nothing.
The label is the f-string `f'\x7bx\x7d vs \x7by\x7d'`. -/
def seriesOfPair (t : Nat) (x y : String) : List Series :=
  if t = 0 then [⟨x, y, x ++ " vs " ++ y, Mark.line⟩]
  else if t = 1 then [⟨x, y, x ++ " vs " ++ y, Mark.scatter⟩]
  else []

/-- Concatenation of the series drawn by a loop over y-columns. -/
def seriesConcat (f : String → List Series) : List String → List Series
  | [] => []
  | y :: rest => f y ++ seriesConcat f rest

/-- Concatenation of the series drawn by a loop over column pairs. -/
def pairsSeries (t : Nat) : List (String × String) → List Series
  | [] => []
  | p :: rest => seriesOfPair t p.1 p.2 ++ pairsSeries t rest

/-- The comprehension of `detect_adjacent_pairs`
(`src/MplCanvas.py` line 200):
`[(df.columns[i], df.columns[i + 1]) for i in range(0, len(df.columns), 2)]`,
started at index `i` and stepping by 2.  Reading `columns[i + 1]` when
`i + 1` is out of range raises `IndexError`, modelled by `none`. -/
def pairsFrom (cols : List String) (i : Nat) : Option (List (String × String)) :=
  if h : i < cols.length then
    match cols.get? (i + 1) with
    | some b => (pairsFrom cols (i + 2)).map (fun r => (cols.get ⟨i, h⟩, b) :: r)
    | none => none
  else
    some []
termination_by cols.length - i

/-- Embedding of `detect_adjacent_pairs` (`src/MplCanvas.py` lines 192-201). -/
def detect_adjacent_pairs (cols : List String) : Option (List (String × String)) :=
  pairsFrom cols 0

/-- Two-at-a-time chunking of a column list, used to characterize
`detect_adjacent_pairs`: pairs of adjacent columns in order, failing when
a single column remains. -/
def adjacentPairsChunked : List String → Option (List (String × String))
  | [] => some []
  | [_] => none
  | a :: b :: rest => (adjacentPairsChunked rest).map (fun r => (a, b) :: r)

/-- Embedding of `MplCanvas.__plot_paired` (`src/MplCanvas.py` lines
146-159): detect the adjacent pairs (which can raise), then draw one
series per pair onto `ax`. -/
def plot_paired (ax : Axes) (cols : List String) (t : Nat) : Option Axes :=
  (detect_adjacent_pairs cols).map (fun pairs =>
    { ax with series := ax.series ++ pairsSeries t pairs })

/-- Embedding of `MplCanvas.__plot_unpaired` (`src/MplCanvas.py` lines
161-177): `data.columns[0]` raises `IndexError` on an empty column list;
otherwise the first column is the shared x-axis and each remaining
column is drawn against it. -/
def plot_unpaired (ax : Axes) (cols : List String) (t : Nat) : Option Axes :=
  match cols with
  | [] => none
  | xcol :: rest =>
    some { ax with series := ax.series ++ seriesConcat (fun y => seriesOfPair t xcol y) rest }

/-- Embedding of `MplCanvas.format_plot` (`src/MplCanvas.py` lines
179-190). -/
def format_plot (ax : Axes) (name : String) : Axes :=
  { ax with title := name, xlabel := "X-axis", ylabel := "Y-axis",
            legend := true, grid := true }

/-- Embedding of `DataHolder` (`src/MplCanvas.py` lines 8-31): the axes
reference is the index of the axes in the figure's addition-order list;
the stored data is the table's column list. -/
structure DataHolder where
  axIdx : Nat
  dataCols : List String
  paired : Bool
  type : Nat
deriving DecidableEq, Repr

/-- One axes of the figure: the grid cell `(row, col)` its subplotspec
assigns, and its drawn/formatted state. -/
structure AxesEntry where
  cell : Nat × Nat
  ax : Axes
deriving DecidableEq, Repr

/-- A `gridspec.GridSpec(nrows, ncols)`. -/
structure GridSpec where
  nrows : Nat
  ncols : Nat
deriving DecidableEq, Repr

/-- State of an `MplCanvas` (`src/MplCanvas.py` lines 33-57): the
figure's axes in addition order, the `plots` dict as an
insertion-ordered association list, the current `GridSpec`, and
`MAX_COL`. -/
structure Canvas where
  figAxes : List AxesEntry
  plots : List (String × DataHolder)
  gs : GridSpec
  MAX_COL : Nat
deriving DecidableEq, Repr

/-- A freshly constructed `MplCanvas`: no axes, empty `plots` dict,
1x1 `GridSpec`, `MAX_COL = 2` (`src/MplCanvas.py` lines 53-56). -/
def initCanvas : Canvas := ⟨[], [], ⟨1, 1⟩, 2⟩

/-- Python dict lookup `m[k]`; `none` models a raised `KeyError`. -/
def dictGet (m : List (String × DataHolder)) (k : String) : Option DataHolder :=
  match m with
  | [] => none
  | (k0, v0) :: rest => if k0 = k then some v0 else dictGet rest k

/-- Python dict assignment `m[k] = v`: overwrites in place when the key
exists (keeping its insertion position), appends otherwise. -/
def dictInsert (m : List (String × DataHolder)) (k : String) (v : DataHolder) :
    List (String × DataHolder) :=
  match m with
  | [] => [(k, v)]
  | (k0, v0) :: rest => if k0 = k then (k, v) :: rest else (k0, v0) :: dictInsert rest k v

/-- Embedding of `MplCanvas.get_ax` (`src/MplCanvas.py` lines 59-67):
`return self.plots[name].ax`; `none` models the `KeyError` on an
unknown name. -/
def get_ax (c : Canvas) (name : String) : Option Nat :=
  (dictGet c.plots name).map (fun dh => dh.axIdx)

/-- In-place overwrite of the drawn/formatted state of the axes at
index `i` (mutation through the Python axes reference). -/
def setAx : List AxesEntry → Nat → Axes → List AxesEntry
  | [], _, _ => []
  | e :: rest, 0, ax => { e with ax := ax } :: rest
  | e :: rest, n + 1, ax => e :: setAx rest n ax

/-- The loop `for i, ax in enumerate(existing_axes): row, col = divmod(i, ncols);
ax.set_subplotspec(new_gs[row, col])` of `__adjust_figure`
(`src/MplCanvas.py` lines 136-138), with `i` starting at `start`. -/
def reposition (ncols : Nat) : Nat → List AxesEntry → List AxesEntry
  | _, [] => []
  | i, e :: rest => { e with cell := (i / ncols, i % ncols) } :: reposition ncols (i + 1) rest

/-- Embedding of `MplCanvas.__adjust_figure` (`src/MplCanvas.py` lines
120-144): recompute `ncols = min(MAX_COL, total_plots)` and
`nrows = ceil(total_plots / ncols)` from the count of existing figure
axes plus one, reposition every existing axes row-major, add the new
subplot at linear index `len(existing_axes)` of the new gridspec, and
install the new gridspec.  Returns the updated canvas and the index of
the new axes. -/
def adjust_figure (c : Canvas) : Canvas × Nat :=
  let total_plots := c.figAxes.length + 1
  let ncols := min c.MAX_COL total_plots
  let nrows := (total_plots + ncols - 1) / ncols
  let moved := reposition ncols 0 c.figAxes
  let newEntry : AxesEntry :=
    ⟨(c.figAxes.length / ncols, c.figAxes.length % ncols), emptyAxes⟩
  ({ c with figAxes := moved ++ [newEntry], gs := ⟨nrows, ncols⟩ }, c.figAxes.length)

/-- Embedding of `MplCanvas.add_plot` (`src/MplCanvas.py` lines 69-96):
if the current gridspec has a free cell (`ncols * nrows >= len(plots) + 1`)
add a subplot at linear index `len(plots)` of the current gridspec,
otherwise grow the layout with `__adjust_figure`; then render the data
onto the new axes (paired or unpaired), format it, and store the
`DataHolder` under `plot_name`.  A `false` result is an exception
raised during rendering, leaving the canvas as mutated so far: the new
axes is already part of the figure but the slot was not stored. -/
def add_plot (c : Canvas) (plot_name : String) (dataCols : List String)
    (paired : Bool) (type : Nat) : Canvas × Bool :=
  let step :=
    if c.gs.ncols * c.gs.nrows ≥ c.plots.length + 1 then
      let k := c.plots.length
      ({ c with figAxes :=
          c.figAxes ++ [⟨(k / c.gs.ncols, k % c.gs.ncols), emptyAxes⟩] },
        c.figAxes.length)
    else
      adjust_figure c
  let c1 := step.1
  let newIdx := step.2
  match (if paired then plot_paired emptyAxes dataCols type
         else plot_unpaired emptyAxes dataCols type) with
  | none => (c1, false)
  | some ax1 =>
    ({ c1 with
        figAxes := setAx c1.figAxes newIdx (format_plot ax1 plot_name),
        plots := dictInsert c1.plots plot_name ⟨newIdx, dataCols, paired, type⟩ },
      true)

/-- Embedding of `MplCanvas.update_plot` (`src/MplCanvas.py` lines
98-118): look up the slot (a `KeyError` on an unknown name is `false`
with the state unchanged), clear its axes with `cla()`, then replot.
The paired branch replots with `__plot_paired` and reformats.  The
unpaired branch of the source calls `self.__plot_series`, a method that
is defined nowhere in the repository, so attribute lookup raises
`AttributeError` after the axes were cleared: modelled by `false` with
the axes left cleared. -/
def update_plot (c : Canvas) (plot_name : String) (dataCols : List String) :
    Canvas × Bool :=
  match dictGet c.plots plot_name with
  | none => (c, false)
  | some dh =>
    let c1 := { c with figAxes := setAx c.figAxes dh.axIdx emptyAxes }
    if dh.paired then
      match plot_paired emptyAxes dataCols dh.type with
      | none => (c1, false)
      | some ax1 =>
        ({ c1 with figAxes := setAx c1.figAxes dh.axIdx (format_plot ax1 plot_name) },
          true)
    else
      (c1, false)

/-- One `add_plot` request: its arguments. -/
structure PlotCall where
  name : String
  dataCols : List String
  paired : Bool
  type : Nat
deriving DecidableEq, Repr

/-- A table renders without raising: an even column count in paired
mode, a nonempty column list in unpaired mode. -/
def callOk (pc : PlotCall) : Bool :=
  if pc.paired then pc.dataCols.length % 2 == 0 else !pc.dataCols.isEmpty

/-- Run a sequence of `add_plot` calls, threading the canvas state. -/
def run_calls (c : Canvas) (calls : List PlotCall) : Canvas :=
  calls.foldl (fun acc pc => (add_plot acc pc.name pc.dataCols pc.paired pc.type).1) c

/-- The gridspec the canvas holds after `n` successful distinct-name
`add_plot` calls from a fresh canvas (`MAX_COL = 2`). -/
def gsOf (n : Nat) : GridSpec := if n ≤ 1 then ⟨1, 1⟩ else ⟨(n + 1) / 2, 2⟩

/-- The grid cell of the figure axes at index `i`, when it exists. -/
def cellOf (c : Canvas) (i : Nat) : Option (Nat × Nat) :=
  (c.figAxes.get? i).map (fun e => e.cell)

/-- Invariant maintained by successful distinct-name `add_plot` calls on
a fresh canvas: axes and slots are in bijection, slot `j` references
axes `j`, every axes sits at the row-major cell of its index, and the
gridspec follows the growth rule. -/
structure CanvasInv (c : Canvas) : Prop where
  maxcol : c.MAX_COL = 2
  len_eq : c.figAxes.length = c.plots.length
  gs_eq : c.gs = gsOf c.plots.length
  idx_eq : ∀ j nm dh, c.plots.get? j = some (nm, dh) → dh.axIdx = j
  cell_eq : ∀ i e, c.figAxes.get? i = some e → e.cell = (i / c.gs.ncols, i % c.gs.ncols)

/-- A concrete sequence of three distinct-name `add_plot` requests. -/
def threeCalls : List PlotCall :=
  [⟨"a", ["A", "B"], false, 0⟩, ⟨"b", ["C", "D"], true, 1⟩, ⟨"c", ["A", "B"], false, 0⟩]

/-- Fresh canvas after three successful unpaired `add_plot` calls named
a, b, c: three slots, three axes, 2x2 gridspec with one free cell. -/
def canvas3 : Canvas :=
  (add_plot (add_plot (add_plot initCanvas
    "a" ["A", "B"] false 0).1
    "b" ["A", "B"] false 0).1
    "c" ["A", "B"] false 0).1

/-!
Helper lemmas: characterization of pair detection, dictionary and
list-update facts, and the gridspec arithmetic of the growth rule.
-/


theorem pairsFrom_chunked (cols : List String) (i : Nat) :
    pairsFrom cols i = adjacentPairsChunked (cols.drop i) := by
  by_cases h : i < cols.length
  · rw [pairsFrom, dif_pos h]
    rcases hb : cols.get? (i + 1) with _ | b
    · have h1 : cols.length ≤ i + 1 := by
        by_contra hlt
        push_neg at hlt
        rw [List.get?_eq_get hlt] at hb
        exact Option.noConfusion hb
      have hdrop : cols.drop i = [cols.get ⟨i, h⟩] := by
        rw [List.drop_eq_getElem_cons h]
        have h2 : cols.drop (i + 1) = [] := List.drop_eq_nil_of_le h1
        rw [h2]
        rfl
      rw [hdrop]
      rfl
    · have h1 : i + 1 < cols.length := by
        by_contra hge
        push_neg at hge
        rw [List.get?_eq_none.2 hge] at hb
        exact Option.noConfusion hb
      have hdrop : cols.drop i = cols.get ⟨i, h⟩ :: cols.get ⟨i + 1, h1⟩ :: cols.drop (i + 2) := by
        rw [List.drop_eq_getElem_cons h, List.drop_eq_getElem_cons h1]
        rfl
      have hb2 : b = cols.get ⟨i + 1, h1⟩ := by
        rw [List.get?_eq_get h1] at hb
        exact (Option.some_inj.1 hb).symm
      have ih := pairsFrom_chunked cols (i + 2)
      rw [hdrop, adjacentPairsChunked, ih, hb2]
  · rw [pairsFrom, dif_neg h]
    push_neg at h
    rw [List.drop_eq_nil_of_le h]
    rfl
termination_by cols.length - i

theorem chunked_even (cols : List String) (h : cols.length % 2 = 0) :
    ∃ ps, adjacentPairsChunked cols = some ps := by
  induction cols using adjacentPairsChunked.induct with
  | case1 => exact ⟨[], rfl⟩
  | case2 a => simp at h
  | case3 a b rest ih =>
    have h2 : rest.length % 2 = 0 := by
      simp [List.length_cons] at h
      omega
    obtain ⟨ps, hps⟩ := ih h2
    exact ⟨(a, b) :: ps, by rw [adjacentPairsChunked, hps]; rfl⟩

theorem chunked_odd (cols : List String) (h : cols.length % 2 = 1) :
    adjacentPairsChunked cols = none := by
  induction cols using adjacentPairsChunked.induct with
  | case1 => simp at h
  | case2 a => rfl
  | case3 a b rest ih =>
    have h2 : rest.length % 2 = 1 := by
      simp [List.length_cons] at h
      omega
    rw [adjacentPairsChunked, ih h2]
    rfl

theorem detect_chunked (cols : List String) :
    detect_adjacent_pairs cols = adjacentPairsChunked cols := by
  have h := pairsFrom_chunked cols 0
  rw [List.drop_zero] at h
  exact h

theorem plot_paired_even (ax : Axes) (cols : List String) (t : Nat)
    (h : cols.length % 2 = 0) : ∃ ax1, plot_paired ax cols t = some ax1 := by
  obtain ⟨ps, hps⟩ := chunked_even cols h
  rw [plot_paired, detect_chunked, hps]
  exact ⟨_, rfl⟩

theorem plot_paired_odd (ax : Axes) (cols : List String) (t : Nat)
    (h : cols.length % 2 = 1) : plot_paired ax cols t = none := by
  rw [plot_paired, detect_chunked, chunked_odd cols h]
  rfl

theorem dictGet_eq_none (m : List (String × DataHolder)) (k : String) :
    dictGet m k = none ↔ k ∉ m.map Prod.fst := by
  induction m with
  | nil => simp [dictGet]
  | cons p rest ih =>
    obtain ⟨k0, v0⟩ := p
    by_cases h : k0 = k
    · subst h
      simp [dictGet]
    · simp [dictGet, h, ih, Ne.symm h]

theorem dictInsert_of_not_mem (m : List (String × DataHolder)) (k : String)
    (v : DataHolder) (h : k ∉ m.map Prod.fst) : dictInsert m k v = m ++ [(k, v)] := by
  induction m with
  | nil => rfl
  | cons p rest ih =>
    obtain ⟨k0, v0⟩ := p
    simp only [List.map_cons, List.mem_cons, not_or] at h
    rw [dictInsert, if_neg (fun he => h.1 he.symm), ih h.2]
    rfl

theorem dictInsert_length_of_mem (m : List (String × DataHolder)) (k : String)
    (v : DataHolder) (h : k ∈ m.map Prod.fst) :
    (dictInsert m k v).length = m.length := by
  induction m with
  | nil => simp at h
  | cons p rest ih =>
    obtain ⟨k0, v0⟩ := p
    by_cases he : k0 = k
    · rw [dictInsert, if_pos he]
      rfl
    · simp only [List.map_cons, List.mem_cons] at h
      rcases h with h | h
    
      · exact absurd h.symm he
      · rw [dictInsert, if_neg he]
        simp [ih h]

theorem dictGet_insert_self (m : List (String × DataHolder)) (k : String)
    (v : DataHolder) : dictGet (dictInsert m k v) k = some v := by
  induction m with
  | nil => simp [dictInsert, dictGet]
  | cons p rest ih =>
    obtain ⟨k0, v0⟩ := p
    by_cases he : k0 = k
    · rw [dictInsert, if_pos he, dictGet, if_pos rfl]
    · rw [dictInsert, if_neg he, dictGet, if_neg he]
      exact ih

theorem setAx_length (l : List AxesEntry) (i : Nat) (ax : Axes) :
    (setAx l i ax).length = l.length := by
  induction l generalizing i with
  | nil => rfl
  | cons e rest ih =>
    cases i with
    | zero => rfl
    | succ n => simp [setAx, ih]

theorem setAx_cell (l : List AxesEntry) (i j : Nat) (ax : Axes) :
    ((setAx l i ax).get? j).map (fun e => e.cell) = (l.get? j).map (fun e => e.cell) := by
  induction l generalizing i j with
  | nil => rfl
  | cons e rest ih =>
    cases i with
    | zero =>
      cases j with
      | zero => rfl
      | succ m => rfl
    | succ n =>
      cases j with
      | zero => rfl
      | succ m => simpa [setAx] using ih n m

theorem reposition_length (ncols s : Nat) (l : List AxesEntry) :
    (reposition ncols s l).length = l.length := by
  induction l generalizing s with
  | nil => rfl
  | cons e rest ih => simp [reposition, ih]

theorem reposition_get (ncols s j : Nat) (l : List AxesEntry) :
    (reposition ncols s l).get? j =
      (l.get? j).map (fun e => { e with cell := ((s + j) / ncols, (s + j) % ncols) }) := by
  induction l generalizing s j with
  | nil => rfl
  | cons e rest ih =>
    cases j with
    | zero => simp [reposition]
    | succ m =>
      rw [reposition]
      have := ih (s + 1) m
      simp only [List.get?_cons_succ, this]
      have harith : s + 1 + m = s + (m + 1) := by omega
      rw [harith]

theorem gsOf_cap_succ (n : Nat) (hcap : (gsOf n).ncols * (gsOf n).nrows ≥ n + 1) :
    gsOf (n + 1) = gsOf n := by
  by_cases h1 : n ≤ 1
  · interval_cases n
    · rfl
    · simp [gsOf] at hcap
  · have h2 : ¬(n + 1 ≤ 1) := by omega
    simp only [gsOf, if_neg h1] at hcap
    simp only [gsOf, if_neg h1, if_neg h2, GridSpec.mk.injEq]
    exact ⟨by omega, trivial⟩

theorem gsOf_succ_formula (n : Nat) :
    gsOf (n + 1) = ⟨(n + 1 + min 2 (n + 1) - 1) / min 2 (n + 1), min 2 (n + 1)⟩ := by
  by_cases h1 : n + 1 ≤ 1
  · have : n = 0 := by omega
    subst this
    rfl
  · simp only [gsOf, if_neg h1, GridSpec.mk.injEq]
    constructor
    · have hm : min 2 (n + 1) = 2 := by omega
      rw [hm]
      omega
    · omega

theorem gsOf_ncols_pos (n : Nat) : 1 ≤ (gsOf n).ncols := by
  by_cases h : n ≤ 1
  · simp [gsOf, h]
  · simp [gsOf, h]


theorem plot_unpaired_some (ax : Axes) (cols : List String) (t : Nat)
    (h : cols ≠ []) : ∃ ax1, plot_unpaired ax cols t = some ax1 := by
  cases cols with
  | nil => exact absurd rfl h
  | cons x rest => exact ⟨_, rfl⟩

theorem callOk_render (pc : PlotCall) (hok : callOk pc = true) :
    ∃ ax1, (if pc.paired then plot_paired emptyAxes pc.dataCols pc.type
            else plot_unpaired emptyAxes pc.dataCols pc.type) = some ax1 := by
  rw [callOk] at hok
  cases hb : pc.paired
  · rw [hb] at hok
    rw [if_neg (by simp)] at hok
    rw [if_neg (by simp)]
    refine plot_unpaired_some _ _ _ ?_
    intro he
    rw [he] at hok
    simp at hok
  · rw [hb] at hok
    rw [if_pos rfl] at hok
    rw [if_pos rfl]
    exact plot_paired_even _ _ _ (by simpa using hok)

theorem add_plot_reuse (c : Canvas) (nm : String) (cols : List String) (b : Bool)
    (t : Nat) (ax1 : Axes)
    (hcap : c.gs.ncols * c.gs.nrows ≥ c.plots.length + 1)
    (hrender : (if b then plot_paired emptyAxes cols t
                else plot_unpaired emptyAxes cols t) = some ax1) :
    add_plot c nm cols b t =
      ({ c with
          figAxes := setAx
            (c.figAxes ++
              [⟨(c.plots.length / c.gs.ncols, c.plots.length % c.gs.ncols), emptyAxes⟩])
            c.figAxes.length (format_plot ax1 nm),
          plots := dictInsert c.plots nm ⟨c.figAxes.length, cols, b, t⟩ }, true) := by
  rw [add_plot, if_pos hcap, hrender]

theorem add_plot_adjust (c : Canvas) (nm : String) (cols : List String) (b : Bool)
    (t : Nat) (ax1 : Axes)
    (hcap : ¬c.gs.ncols * c.gs.nrows ≥ c.plots.length + 1)
    (hrender : (if b then plot_paired emptyAxes cols t
                else plot_unpaired emptyAxes cols t) = some ax1) :
    add_plot c nm cols b t =
      ({ c with
          figAxes := setAx
            (reposition (min c.MAX_COL (c.figAxes.length + 1)) 0 c.figAxes ++
              [⟨(c.figAxes.length / min c.MAX_COL (c.figAxes.length + 1),
                 c.figAxes.length % min c.MAX_COL (c.figAxes.length + 1)), emptyAxes⟩])
            c.figAxes.length (format_plot ax1 nm),
          plots := dictInsert c.plots nm ⟨c.figAxes.length, cols, b, t⟩,
          gs := ⟨(c.figAxes.length + 1 + min c.MAX_COL (c.figAxes.length + 1) - 1) /
                   min c.MAX_COL (c.figAxes.length + 1),
                 min c.MAX_COL (c.figAxes.length + 1)⟩ }, true) := by
  rw [add_plot, if_neg hcap, hrender]
  rfl

theorem add_plot_fail_state (c : Canvas) (nm : String) (cols : List String) (b : Bool)
    (t : Nat)
    (hrender : (if b then plot_paired emptyAxes cols t
                else plot_unpaired emptyAxes cols t) = none) :
    (add_plot c nm cols b t).2 = false ∧
    (add_plot c nm cols b t).1.plots = c.plots ∧
    (add_plot c nm cols b t).1.figAxes.length = c.figAxes.length + 1 := by
  rw [add_plot]
  by_cases hcap : c.gs.ncols * c.gs.nrows ≥ c.plots.length + 1
  · rw [if_pos hcap, hrender]
    refine ⟨rfl, rfl, ?_⟩
    show (c.figAxes ++ _).length = c.figAxes.length + 1
    simp
  · rw [if_neg hcap, hrender]
    refine ⟨rfl, rfl, ?_⟩
    show ((adjust_figure c).1).figAxes.length = c.figAxes.length + 1
    rw [adjust_figure]
    show (reposition _ 0 c.figAxes ++ _).length = c.figAxes.length + 1
    simp [reposition_length]



theorem canvasInv_init : CanvasInv initCanvas := by
  refine ⟨rfl, rfl, rfl, ?_, ?_⟩
  · intro j nm dh h
    simp [initCanvas] at h
  · intro i e h
    simp [initCanvas] at h

theorem cell_eq_setAx (l : List AxesEntry) (k : Nat) (ax : Axes) (ncols : Nat)
    (hl : ∀ i e, l.get? i = some e → e.cell = (i / ncols, i % ncols)) :
    ∀ i e, (setAx l k ax).get? i = some e → e.cell = (i / ncols, i % ncols) := by
  intro i e h
  have hc := setAx_cell l k i ax
  rw [h] at hc
  rcases hl2 : l.get? i with _ | e0
  · rw [hl2] at hc
    exact Option.noConfusion hc
  · rw [hl2] at hc
    simp only [Option.map_some'] at hc
    rw [Option.some_inj.1 hc]
    exact hl i e0 hl2

theorem cell_eq_append (base : List AxesEntry) (ncols : Nat) (e0 : AxesEntry)
    (hbase : ∀ i e, base.get? i = some e → e.cell = (i / ncols, i % ncols))
    (he0 : e0.cell = (base.length / ncols, base.length % ncols)) :
    ∀ i e, (base ++ [e0]).get? i = some e → e.cell = (i / ncols, i % ncols) := by
  intro i e h
  rcases Nat.lt_trichotomy i base.length with hlt | heq | hgt
  · rw [List.get?_append hlt] at h
    exact hbase i e h
  · subst heq
    rw [List.get?_concat_length] at h
    rw [← Option.some_inj.1 h]
    exact he0
  · have hnone : (base ++ [e0]).get? i = none := by
      apply List.get?_eq_none.2
      simp only [List.length_append, List.length_cons, List.length_nil]
      omega
    rw [hnone] at h
    exact Option.noConfusion h

theorem idx_eq_append (m : List (String × DataHolder)) (nm : String) (dh : DataHolder)
    (hm : ∀ j nm0 dh0, m.get? j = some (nm0, dh0) → dh0.axIdx = j)
    (hdh : dh.axIdx = m.length) :
    ∀ j nm0 dh0, (m ++ [(nm, dh)]).get? j = some (nm0, dh0) → dh0.axIdx = j := by
  intro j nm0 dh0 h
  rcases Nat.lt_trichotomy j m.length with hlt | heq | hgt
  · rw [List.get?_append hlt] at h
    exact hm j nm0 dh0 h
  · subst heq
    rw [List.get?_concat_length] at h
    have hp := Option.some_inj.1 h
    have hdh0 : dh = dh0 := congrArg Prod.snd hp
    rw [← hdh0]
    exact hdh
  · have hnone : (m ++ [(nm, dh)]).get? j = none := by
      apply List.get?_eq_none.2
      simp only [List.length_append, List.length_cons, List.length_nil]
      omega
    rw [hnone] at h
    exact Option.noConfusion h

theorem add_plot_step (c : Canvas) (pc : PlotCall) (hInv : CanvasInv c)
    (hfresh : pc.name ∉ c.plots.map Prod.fst) (hok : callOk pc = true) :
    (add_plot c pc.name pc.dataCols pc.paired pc.type).2 = true ∧
    CanvasInv (add_plot c pc.name pc.dataCols pc.paired pc.type).1 ∧
    (add_plot c pc.name pc.dataCols pc.paired pc.type).1.plots.map Prod.fst
      = c.plots.map Prod.fst ++ [pc.name] := by
  obtain ⟨ax1, hrender⟩ := callOk_render pc hok
  have hins : dictInsert c.plots pc.name ⟨c.figAxes.length, pc.dataCols, pc.paired, pc.type⟩
      = c.plots ++ [(pc.name, ⟨c.figAxes.length, pc.dataCols, pc.paired, pc.type⟩)] :=
    dictInsert_of_not_mem _ _ _ hfresh
  by_cases hcap : c.gs.ncols * c.gs.nrows ≥ c.plots.length + 1
  · rw [add_plot_reuse c pc.name pc.dataCols pc.paired pc.type ax1 hcap hrender]
    have hgs : gsOf (c.plots.length + 1) = gsOf c.plots.length := by
      apply gsOf_cap_succ
      rw [← hInv.gs_eq]
      exact hcap
    refine ⟨rfl, ⟨hInv.maxcol, ?_, ?_, ?_, ?_⟩, ?_⟩
    · show (setAx _ _ _).length = (dictInsert _ _ _).length
      rw [setAx_length, hins]
      simp [hInv.len_eq]
    · show c.gs = gsOf (dictInsert _ _ _).length
      rw [hins]
      simp only [List.length_append, List.length_cons, List.length_nil, Nat.zero_add]
      rw [hgs]
      exact hInv.gs_eq
    · show ∀ j nm dh, (dictInsert _ _ _).get? j = some (nm, dh) → dh.axIdx = j
      rw [hins]
      exact idx_eq_append _ _ _ hInv.idx_eq hInv.len_eq
    · show ∀ i e, (setAx _ _ _).get? i = some e →
        e.cell = (i / c.gs.ncols, i % c.gs.ncols)
      apply cell_eq_setAx
      apply cell_eq_append _ _ _ hInv.cell_eq
      rw [hInv.len_eq]
    · show (dictInsert _ _ _).map Prod.fst = c.plots.map Prod.fst ++ [pc.name]
      rw [hins]
      simp
  · rw [add_plot_adjust c pc.name pc.dataCols pc.paired pc.type ax1 hcap hrender]
    have hnc : min c.MAX_COL (c.figAxes.length + 1) = min 2 (c.plots.length + 1) := by
      rw [hInv.maxcol, hInv.len_eq]
    have hgs2 : (⟨(c.figAxes.length + 1 + min c.MAX_COL (c.figAxes.length + 1) - 1) /
          min c.MAX_COL (c.figAxes.length + 1),
          min c.MAX_COL (c.figAxes.length + 1)⟩ : GridSpec) = gsOf (c.plots.length + 1) := by
      rw [hnc, hInv.len_eq, gsOf_succ_formula]
    refine ⟨rfl, ⟨hInv.maxcol, ?_, ?_, ?_, ?_⟩, ?_⟩
    · show (setAx _ _ _).length = (dictInsert _ _ _).length
      rw [setAx_length, hins]
      simp [reposition_length, hInv.len_eq]
    · show _ = gsOf (dictInsert _ _ _).length
      rw [hins]
      simp only [List.length_append, List.length_cons, List.length_nil, Nat.zero_add]
      exact hgs2
    · show ∀ j nm dh, (dictInsert _ _ _).get? j = some (nm, dh) → dh.axIdx = j
      rw [hins]
      exact idx_eq_append _ _ _ hInv.idx_eq hInv.len_eq
    · show ∀ i e, (setAx _ _ _).get? i = some e →
        e.cell = (i / min c.MAX_COL (c.figAxes.length + 1),
                  i % min c.MAX_COL (c.figAxes.length + 1))
      apply cell_eq_setAx
      apply cell_eq_append
      · intro i e h
        rw [reposition_get] at h
        rcases hl2 : c.figAxes.get? i with _ | e0
        · rw [hl2] at h
          exact Option.noConfusion h
        · rw [hl2] at h
          simp only [Option.map_some'] at h
          rw [← Option.some_inj.1 h]
          simp
      · rw [reposition_length]
    · show (dictInsert _ _ _).map Prod.fst = c.plots.map Prod.fst ++ [pc.name]
      rw [hins]
      simp


theorem run_calls_inv (calls : List PlotCall) : ∀ (c : Canvas), CanvasInv c →
    (∀ pc ∈ calls, callOk pc = true) →
    (calls.map PlotCall.name).Nodup →
    (∀ pc ∈ calls, pc.name ∉ c.plots.map Prod.fst) →
    CanvasInv (run_calls c calls) ∧
    (run_calls c calls).plots.length = c.plots.length + calls.length := by
  induction calls with
  | nil =>
    intro c hInv _ _ _
    exact ⟨hInv, by simp [run_calls]⟩
  | cons pc rest ih =>
    intro c hInv hok hnod hfresh
    obtain ⟨hsucc, hInv1, hkeys⟩ :=
      add_plot_step c pc hInv (hfresh pc (by simp)) (hok pc (by simp))
    have hrc : run_calls c (pc :: rest) =
        run_calls (add_plot c pc.name pc.dataCols pc.paired pc.type).1 rest := rfl
    have hlen1 : (add_plot c pc.name pc.dataCols pc.paired pc.type).1.plots.length
        = c.plots.length + 1 := by
      have hm := congrArg List.length hkeys
      simpa using hm
    have hfresh1 : ∀ q ∈ rest,
        q.name ∉ (add_plot c pc.name pc.dataCols pc.paired pc.type).1.plots.map Prod.fst := by
      intro q hq
      rw [hkeys]
      intro hmem
      rcases List.mem_append.1 hmem with hmem1 | hmem2
      · exact hfresh q (by simp [hq]) hmem1
      · have hqn : q.name = pc.name := by simpa using hmem2
        have hh := (List.nodup_cons.1 hnod).1
        exact hh (by rw [← hqn]; exact List.mem_map_of_mem _ hq)
    obtain ⟨hInvR, hlenR⟩ := ih _ hInv1
      (fun q hq => hok q (by simp [hq]))
      ((List.nodup_cons.1 hnod).2) hfresh1
    refine ⟨by rwa [hrc], ?_⟩
    rw [hrc, hlenR, hlen1]
    simp only [List.length_cons]
    omega

theorem gsOf_closed (n : Nat) (h : 1 ≤ n) :
    (gsOf n).ncols = min 2 n ∧ (gsOf n).nrows = (n + min 2 n - 1) / min 2 n := by
  by_cases h1 : n ≤ 1
  · have hn : n = 1 := by omega
    subst hn
    exact ⟨by decide, by decide⟩
  · have h2 : min 2 n = 2 := by omega
    simp only [gsOf, if_neg h1]
    rw [h2]
    exact ⟨rfl, by omega⟩


theorem gsOf_ncols_le (n : Nat) : (gsOf n).ncols ≤ 2 := by
  by_cases h : n ≤ 1
  · simp [gsOf, h]
  · simp [gsOf, h]


/-- C1: after any nonempty sequence of successful `add_plot` calls with
pairwise-distinct names on a fresh canvas, the gridspec satisfies
`cols = min(MAX_COL, N)` and `rows = ceil(N / cols)`. -/
theorem layout_after_distinct_adds (calls : List PlotCall)
    (hnod : (calls.map PlotCall.name).Nodup)
    (hok : ∀ pc ∈ calls, callOk pc = true)
    (hne : calls ≠ []) :
    (run_calls initCanvas calls).gs.ncols = min 2 calls.length ∧
    (run_calls initCanvas calls).gs.nrows =
      (calls.length + (run_calls initCanvas calls).gs.ncols - 1) /
        (run_calls initCanvas calls).gs.ncols := by
  obtain ⟨hInv, hlen⟩ := run_calls_inv calls initCanvas canvasInv_init hok hnod
    (by intro pc _; simp [initCanvas])
  have hlen2 : (run_calls initCanvas calls).plots.length = calls.length := by
    simpa [initCanvas] using hlen
  have hgs := hInv.gs_eq
  rw [hlen2] at hgs
  have h1 : 1 ≤ calls.length := by
    cases calls with
    | nil => exact absurd rfl hne
    | cons a l => simp
  obtain ⟨hc, hr⟩ := gsOf_closed calls.length h1
  rw [hgs]
  refine ⟨hc, ?_⟩
  rw [hc]
  exact hr

theorem layout_after_distinct_adds_witness :
    ((threeCalls.map PlotCall.name).Nodup ∧ (∀ pc ∈ threeCalls, callOk pc = true) ∧
      threeCalls ≠ []) ∧
    ((run_calls initCanvas threeCalls).gs.ncols = min 2 threeCalls.length ∧
     (run_calls initCanvas threeCalls).gs.nrows =
       (threeCalls.length + (run_calls initCanvas threeCalls).gs.ncols - 1) /
         (run_calls initCanvas threeCalls).gs.ncols) :=
  ⟨⟨by decide, by decide, by decide⟩,
   layout_after_distinct_adds threeCalls (by decide) (by decide) (by decide)⟩

/-- C6: after any sequence of successful distinct-name `add_plot` calls
on a fresh canvas, there is exactly one figure axes per slot, the slot
at insertion index `j` references axes `j` sitting at grid cell
`(j div cols, j mod cols)` for the current column count, no two axes
share a cell, and the column count never exceeds `MAX_COL`. -/
theorem region_assignment_row_major (calls : List PlotCall)
    (hnod : (calls.map PlotCall.name).Nodup)
    (hok : ∀ pc ∈ calls, callOk pc = true) :
    (run_calls initCanvas calls).figAxes.length =
      (run_calls initCanvas calls).plots.length ∧
    (∀ j nm dh, (run_calls initCanvas calls).plots.get? j = some (nm, dh) →
      dh.axIdx = j ∧
      cellOf (run_calls initCanvas calls) j =
        some (j / (run_calls initCanvas calls).gs.ncols,
              j % (run_calls initCanvas calls).gs.ncols)) ∧
    (∀ i k, i < (run_calls initCanvas calls).figAxes.length →
      k < (run_calls initCanvas calls).figAxes.length →
      cellOf (run_calls initCanvas calls) i = cellOf (run_calls initCanvas calls) k →
      i = k) ∧
    (run_calls initCanvas calls).gs.ncols ≤ (run_calls initCanvas calls).MAX_COL := by
  obtain ⟨hInv, hlen⟩ := run_calls_inv calls initCanvas canvasInv_init hok hnod
    (by intro pc _; simp [initCanvas])
  have hpos : 1 ≤ (run_calls initCanvas calls).gs.ncols := by
    rw [hInv.gs_eq]
    exact gsOf_ncols_pos _
  refine ⟨hInv.len_eq, ?_, ?_, ?_⟩
  · intro j nm dh h
    have hidx := hInv.idx_eq j nm dh h
    refine ⟨hidx, ?_⟩
    have hjlt : j < (run_calls initCanvas calls).plots.length := by
      by_contra hge
      push_neg at hge
      rw [List.get?_eq_none.2 hge] at h
      exact Option.noConfusion h
    have hjlt2 : j < (run_calls initCanvas calls).figAxes.length := by
      rw [hInv.len_eq]
      exact hjlt
    rw [cellOf, List.get?_eq_get hjlt2]
    simp only [Option.map_some']
    rw [hInv.cell_eq j _ (List.get?_eq_get hjlt2)]
  · intro i k hi hk hcell
    rw [cellOf, List.get?_eq_get hi] at hcell
    rw [cellOf, List.get?_eq_get hk] at hcell
    simp only [Option.map_some'] at hcell
    have hci := hInv.cell_eq i _ (List.get?_eq_get hi)
    have hck := hInv.cell_eq k _ (List.get?_eq_get hk)
    rw [hci, hck] at hcell
    rw [Option.some_inj, Prod.mk.injEq] at hcell
    obtain ⟨hdiv, hmod⟩ := hcell
    have hdm := Nat.div_add_mod i (run_calls initCanvas calls).gs.ncols
    have hdm2 := Nat.div_add_mod k (run_calls initCanvas calls).gs.ncols
    rw [← hdm, ← hdm2, hdiv, hmod]
  · rw [hInv.maxcol, hInv.gs_eq]
    exact gsOf_ncols_le _

theorem region_assignment_row_major_witness :
    ((threeCalls.map PlotCall.name).Nodup ∧ (∀ pc ∈ threeCalls, callOk pc = true)) ∧
    (run_calls initCanvas threeCalls).figAxes.length =
      (run_calls initCanvas threeCalls).plots.length :=
  ⟨⟨by decide, by decide⟩,
   (region_assignment_row_major threeCalls (by decide) (by decide)).1⟩


theorem seriesOfPair_single (t : Nat) (ht : t = 0 ∨ t = 1) (x y : String) :
    seriesOfPair t x y =
      [⟨x, y, x ++ " vs " ++ y, if t = 0 then Mark.line else Mark.scatter⟩] := by
  rcases ht with h | h
  · subst h
    rfl
  · subst h
    rfl

theorem seriesConcat_eq_map (f : String → List Series) (g : String → Series)
    (hf : ∀ y, f y = [g y]) (l : List String) : seriesConcat f l = l.map g := by
  induction l with
  | nil => rfl
  | cons y rest ih =>
    rw [seriesConcat, hf, ih]
    rfl

theorem seriesOfPair_empty (t : Nat) (h0 : t ≠ 0) (h1 : t ≠ 1) (x y : String) :
    seriesOfPair t x y = [] := by
  rw [seriesOfPair, if_neg h0, if_neg h1]

theorem seriesConcat_empty (f : String → List Series) (hf : ∀ y, f y = [])
    (l : List String) : seriesConcat f l = [] := by
  induction l with
  | nil => rfl
  | cons y rest ih =>
    rw [seriesConcat, hf, ih]
    rfl

theorem pairsSeries_empty (t : Nat) (h0 : t ≠ 0) (h1 : t ≠ 1)
    (ps : List (String × String)) : pairsSeries t ps = [] := by
  induction ps with
  | nil => rfl
  | cons p rest ih =>
    rw [pairsSeries, seriesOfPair_empty t h0 h1, ih]
    rfl

/-- C2 (amended): paired-mode rendering consumes the columns two at a
time in insertion order, emitting one series per pair labeled
"x vs y" with X the pair's first column and Y its second; on
`[A, B, C, D]` it emits exactly the two series `A vs B` and `C vs D`;
and when the column count is odd the code does not silently drop the
trailing column: `detect_adjacent_pairs` raises IndexError, so the
render fails and emits nothing. -/
theorem paired_mode_consumes_pairs (ax : Axes) (cols : List String) (t : Nat) :
    plot_paired ax cols t =
      (adjacentPairsChunked cols).map
        (fun ps => { ax with series := ax.series ++ pairsSeries t ps }) ∧
    (cols.length % 2 = 1 → plot_paired ax cols t = none) ∧
    plot_paired emptyAxes ["A", "B", "C", "D"] 0 =
      some { emptyAxes with series :=
        [⟨"A", "B", "A vs B", Mark.line⟩, ⟨"C", "D", "C vs D", Mark.line⟩] } := by
  refine ⟨?_, ?_, ?_⟩
  · rw [plot_paired, detect_chunked]
  · intro hodd
    exact plot_paired_odd ax cols t hodd
  · rw [plot_paired, detect_chunked]
    rfl

theorem paired_mode_consumes_pairs_witness :
    ((["A", "B", "C"] : List String).length % 2 = 1) ∧
    plot_paired emptyAxes ["A", "B", "C"] 0 = none :=
  ⟨by decide, (paired_mode_consumes_pairs emptyAxes ["A", "B", "C"] 0).2.1 (by decide)⟩

/-- C2 counterexample: on the odd-column table `[A, B, C]` the claim
says paired-mode rendering succeeds, silently dropping `C` and emitting
one series; in the code `detect_adjacent_pairs` reads `columns[3]` and
raises IndexError, so rendering fails and an `add_plot` of that table
errors. -/
theorem paired_odd_drop_refuted :
    plot_paired emptyAxes ["A", "B", "C"] 0 = none ∧
    (add_plot initCanvas "p" ["A", "B", "C"] true 0).2 = false := by
  have h1 : plot_paired emptyAxes ["A", "B", "C"] 0 = none := by
    rw [plot_paired, detect_chunked]
    rfl
  refine ⟨h1, ?_⟩
  have hr : (if (true : Bool) then plot_paired emptyAxes ["A", "B", "C"] 0
             else plot_unpaired emptyAxes ["A", "B", "C"] 0) = none := by
    rw [if_pos rfl]
    exact h1
  exact (add_plot_fail_state initCanvas "p" ["A", "B", "C"] true 0 hr).1

/-- C3: unpaired-mode rendering on a table with columns `x :: rest`
(at least 2 columns) uses `x` as the shared X-axis and emits exactly
one series per subsequent column, in order, labeled "x vs y". -/
theorem unpaired_mode_series (ax : Axes) (x : String) (rest : List String)
    (t : Nat) (ht : t = 0 ∨ t = 1) (_hr : rest ≠ []) :
    plot_unpaired ax (x :: rest) t =
      some { ax with series := (ax.series ++
        rest.map (fun y => ⟨x, y, x ++ " vs " ++ y,
          if t = 0 then Mark.line else Mark.scatter⟩)) } ∧
    (rest.map (fun y => (⟨x, y, x ++ " vs " ++ y,
        if t = 0 then Mark.line else Mark.scatter⟩ : Series))).length
      = rest.length := by
  constructor
  · rw [plot_unpaired]
    rw [seriesConcat_eq_map _ _ (fun y => seriesOfPair_single t ht x y)]
  · exact List.length_map _ _

theorem unpaired_mode_series_witness :
    ((0 : Nat) = 0 ∨ (0 : Nat) = 1) ∧ (["B", "C"] : List String) ≠ [] ∧
    plot_unpaired emptyAxes ["A", "B", "C"] 0 =
      some { emptyAxes with series :=
        [⟨"A", "B", "A vs B", Mark.line⟩, ⟨"A", "C", "A vs C", Mark.line⟩] } := by
  refine ⟨Or.inl rfl, by decide, ?_⟩
  have h := (unpaired_mode_series emptyAxes "A" ["B", "C"] 0 (Or.inl rfl) (by decide)).1
  rw [h]
  rfl


theorem dictGet_some_mem (m : List (String × DataHolder)) (k : String)
    (v : DataHolder) (h : dictGet m k = some v) : k ∈ m.map Prod.fst := by
  induction m with
  | nil => exact Option.noConfusion h
  | cons p rest ih =>
    obtain ⟨k0, v0⟩ := p
    by_cases he : k0 = k
    · simp [he]
    · rw [dictGet, if_neg he] at h
      simp [ih h]


/-- C10: for every style value other than 0 (line) and 1 (scatter),
rendering draws zero series in both modes (on tables that render), and
`add_plot` still completes successfully: the region is formatted and
the slot stored under its name. -/
theorem unknown_style_zero_series (t : Nat) (h0 : t ≠ 0) (h1 : t ≠ 1)
    (ax : Axes) (x nm : String) (rest cols2 : List String)
    (heven : cols2.length % 2 = 0) :
    plot_unpaired ax (x :: rest) t = some ax ∧
    plot_paired ax cols2 t = some ax ∧
    (add_plot initCanvas nm (x :: rest) false t).2 = true ∧
    dictGet (add_plot initCanvas nm (x :: rest) false t).1.plots nm =
      some ⟨0, x :: rest, false, t⟩ ∧
    (add_plot initCanvas nm (x :: rest) false t).1.figAxes =
      [⟨(0, 0), ⟨[], nm, "X-axis", "Y-axis", true, true⟩⟩] := by
  have hemp : ∀ (ax0 : Axes), plot_unpaired ax0 (x :: rest) t = some ax0 := by
    intro ax0
    rw [plot_unpaired, seriesConcat_empty _ (fun y => seriesOfPair_empty t h0 h1 x y)]
    rw [List.append_nil]
  have hpair : plot_paired ax cols2 t = some ax := by
    obtain ⟨ps, hps⟩ := chunked_even cols2 heven
    rw [plot_paired, detect_chunked, hps]
    simp only [Option.map_some']
    rw [pairsSeries_empty t h0 h1, List.append_nil]
  have hrender : (if (false : Bool) then plot_paired emptyAxes (x :: rest) t
      else plot_unpaired emptyAxes (x :: rest) t) = some emptyAxes := by
    rw [if_neg (by simp)]
    exact hemp emptyAxes
  have hre := add_plot_reuse initCanvas nm (x :: rest) false t emptyAxes
    (by decide) hrender
  refine ⟨hemp ax, hpair, ?_, ?_, ?_⟩
  · rw [hre]
  · rw [hre]
    show dictGet (dictInsert initCanvas.plots nm ⟨0, x :: rest, false, t⟩) nm = _
    exact dictGet_insert_self _ _ _
  · rw [hre]
    rfl

theorem unknown_style_zero_series_witness :
    ((2 : Nat) ≠ 0 ∧ (2 : Nat) ≠ 1 ∧ ([] : List String).length % 2 = 0) ∧
    (plot_unpaired emptyAxes ["A", "B"] 2 = some emptyAxes ∧
     plot_paired emptyAxes [] 2 = some emptyAxes ∧
     (add_plot initCanvas "p" ["A", "B"] false 2).2 = true ∧
     dictGet (add_plot initCanvas "p" ["A", "B"] false 2).1.plots "p" =
       some ⟨0, ["A", "B"], false, 2⟩ ∧
     (add_plot initCanvas "p" ["A", "B"] false 2).1.figAxes =
       [⟨(0, 0), ⟨[], "p", "X-axis", "Y-axis", true, true⟩⟩]) :=
  ⟨⟨by decide, by decide, by decide⟩,
   unknown_style_zero_series 2 (by decide) (by decide) emptyAxes "A" "p" ["B"] []
     (by decide)⟩

/-- C4 counterexample: `add_plot("p1", table_with_1_column, False, line)`
does not raise any error: `add_plot` contains no table validation, the
unpaired render of a one-column table draws zero series, and the slot
is stored. -/
theorem one_column_add_succeeds_cex :
    (add_plot initCanvas "p1" ["A"] false 0).2 = true ∧
    dictGet (add_plot initCanvas "p1" ["A"] false 0).1.plots "p1" =
      some ⟨0, ["A"], false, 0⟩ ∧
    (add_plot initCanvas "p1" ["A"] false 0).1.figAxes =
      [⟨(0, 0), ⟨[], "p1", "X-axis", "Y-axis", true, true⟩⟩] := by
  refine ⟨rfl, ?_, rfl⟩
  rfl

/-- C4 (amended): `add_plot` performs no table validation and no
`InvalidTableError` exists.  A one-column table in unpaired mode
succeeds, emitting zero series and storing the slot; an empty
(zero-column) table fails only inside rendering with an IndexError,
raised after the new region was already added to the figure, with the
slot mapping unchanged. -/
theorem add_plot_no_table_validation (nm : String) (t : Nat) :
    (add_plot initCanvas nm ["A"] false t).2 = true ∧
    (add_plot initCanvas nm [] false t).2 = false ∧
    (add_plot initCanvas nm [] false t).1.plots = [] ∧
    (add_plot initCanvas nm [] false t).1.figAxes.length = 1 := by
  refine ⟨rfl, rfl, rfl, rfl⟩

theorem add_plot_no_table_validation_witness :
    (add_plot initCanvas "p1" ["A"] false 0).2 = true ∧
    (add_plot initCanvas "p1" [] false 0).2 = false ∧
    (add_plot initCanvas "p1" [] false 0).1.plots = [] ∧
    (add_plot initCanvas "p1" [] false 0).1.figAxes.length = 1 :=
  add_plot_no_table_validation "p1" 0


theorem update_plot_paired_eq (c : Canvas) (nm : String) (cols : List String)
    (dh : DataHolder) (ax1 : Axes)
    (hget : dictGet c.plots nm = some dh) (hp : dh.paired = true)
    (hrender : plot_paired emptyAxes cols dh.type = some ax1) :
    update_plot c nm cols =
      ({ c with figAxes := (setAx (setAx c.figAxes dh.axIdx emptyAxes) dh.axIdx
          (format_plot ax1 nm)) }, true) := by
  rw [update_plot, hget]
  dsimp only
  rw [hp, if_pos rfl, hrender]

theorem update_plot_unpaired_err (c : Canvas) (nm : String) (cols : List String)
    (dh : DataHolder)
    (hget : dictGet c.plots nm = some dh) (hp : dh.paired = false) :
    update_plot c nm cols =
      ({ c with figAxes := setAx c.figAxes dh.axIdx emptyAxes }, false) := by
  rw [update_plot, hget]
  dsimp only
  rw [hp, if_neg Bool.false_ne_true]

/-- C5: the claim fails on unpaired slots.  Evaluating the code at the
failing input: a slot stored with `paired = False` cannot be updated —
the unpaired branch of `update_plot` calls `self.__plot_series`, a
method defined nowhere in the repository, so attribute lookup raises
AttributeError after the axes were cleared and nothing is re-rendered;
a paired slot, by contrast, updates successfully with its stored style. -/
theorem update_unpaired_slot_fails :
    (update_plot (add_plot initCanvas "p" ["A", "B"] false 0).1 "p" ["X", "Y"]).2
      = false ∧
    (update_plot (add_plot initCanvas "p" ["A", "B"] false 0).1 "p" ["X", "Y"]).1.figAxes
      = [⟨(0, 0), emptyAxes⟩] ∧
    (update_plot (add_plot initCanvas "q" ["C", "D"] true 1).1 "q" ["E", "F"]).2
      = true := by
  have hpp : plot_paired emptyAxes ["C", "D"] 1 =
      some ⟨[⟨"C", "D", "C vs D", Mark.scatter⟩], "", "", "", false, false⟩ := by
    rw [plot_paired, detect_chunked]
    rfl
  have hradd : (if (true : Bool) then plot_paired emptyAxes ["C", "D"] 1
      else plot_unpaired emptyAxes ["C", "D"] 1) =
      some ⟨[⟨"C", "D", "C vs D", Mark.scatter⟩], "", "", "", false, false⟩ := by
    rw [if_pos rfl]
    exact hpp
  have hadd := add_plot_reuse initCanvas "q" ["C", "D"] true 1
    ⟨[⟨"C", "D", "C vs D", Mark.scatter⟩], "", "", "", false, false⟩
    (by decide) hradd
  have hpp2 : plot_paired emptyAxes ["E", "F"] 1 =
      some ⟨[⟨"E", "F", "E vs F", Mark.scatter⟩], "", "", "", false, false⟩ := by
    rw [plot_paired, detect_chunked]
    rfl
  refine ⟨rfl, rfl, ?_⟩
  rw [hadd]
  have hupd := update_plot_paired_eq
    ({ initCanvas with
        figAxes := setAx
          (initCanvas.figAxes ++
            [⟨(initCanvas.plots.length / initCanvas.gs.ncols,
               initCanvas.plots.length % initCanvas.gs.ncols), emptyAxes⟩])
          initCanvas.figAxes.length
          (format_plot ⟨[⟨"C", "D", "C vs D", Mark.scatter⟩], "", "", "", false, false⟩ "q"),
        plots := dictInsert initCanvas.plots "q" ⟨initCanvas.figAxes.length, ["C", "D"], true, 1⟩ })
    "q" ["E", "F"] ⟨initCanvas.figAxes.length, ["C", "D"], true, 1⟩
    ⟨[⟨"E", "F", "E vs F", Mark.scatter⟩], "", "", "", false, false⟩
    (dictGet_insert_self _ _ _) rfl hpp2
  rw [hupd]


/-- C7 counterexample: `add_plot("p", table_with_columns_[A], paired=True, 0)`
raises inside rendering, yet the new region had already been added to
the figure and no slot was stored: layout mutation and slot storage do
not happen atomically. -/
theorem erroring_add_leaves_region_cex :
    (add_plot initCanvas "p" ["A"] true 0).2 = false ∧
    (add_plot initCanvas "p" ["A"] true 0).1.figAxes.length = 1 ∧
    (add_plot initCanvas "p" ["A"] true 0).1.plots = [] := by
  have hr : (if (true : Bool) then plot_paired emptyAxes ["A"] 0
             else plot_unpaired emptyAxes ["A"] 0) = none := by
    rw [if_pos rfl]
    exact plot_paired_odd _ _ _ (by decide)
  obtain ⟨h1, h2, h3⟩ := add_plot_fail_state initCanvas "p" ["A"] true 0 hr
  exact ⟨h1, h3, h2⟩

/-- C7 (amended): `add_plot` is not atomic: every erroring call leaves
the newly created region in the figure (after any relayout) while the
slot is not stored — only the storage step is skipped, the layout
mutation has already happened. -/
theorem add_plot_error_nonatomic (c : Canvas) (nm : String) (cols : List String)
    (b : Bool) (t : Nat)
    (hfail : (add_plot c nm cols b t).2 = false) :
    (add_plot c nm cols b t).1.figAxes.length = c.figAxes.length + 1 ∧
    (add_plot c nm cols b t).1.plots = c.plots := by
  rcases hrender : (if b then plot_paired emptyAxes cols t
                    else plot_unpaired emptyAxes cols t) with _ | ax1
  · obtain ⟨h1, h2, h3⟩ := add_plot_fail_state c nm cols b t hrender
    exact ⟨h3, h2⟩
  · exfalso
    by_cases hcap : c.gs.ncols * c.gs.nrows ≥ c.plots.length + 1
    · rw [add_plot_reuse c nm cols b t ax1 hcap hrender] at hfail
      exact Bool.noConfusion hfail
    · rw [add_plot_adjust c nm cols b t ax1 hcap hrender] at hfail
      exact Bool.noConfusion hfail

theorem add_plot_error_nonatomic_witness :
    (add_plot initCanvas "p" [] false 0).2 = false ∧
    ((add_plot initCanvas "p" [] false 0).1.figAxes.length =
        initCanvas.figAxes.length + 1 ∧
     (add_plot initCanvas "p" [] false 0).1.plots = initCanvas.plots) :=
  ⟨rfl, add_plot_error_nonatomic initCanvas "p" [] false 0 rfl⟩

/-- C8 counterexample: after three distinct adds (2x2 grid with a free
cell), re-adding the existing name `a` does not keep the slot's region:
the call succeeds without any grid growth (the gridspec stays 2x2), yet
the slot's axes reference changes from index 0 to the fresh axes at
index 3, the figure now holds 4 axes for 3 slots, and the old region
remains in the figure. -/
theorem duplicate_add_changes_region_cex :
    (add_plot canvas3 "a" ["A", "B"] false 0).2 = true ∧
    get_ax canvas3 "a" = some 0 ∧
    get_ax (add_plot canvas3 "a" ["A", "B"] false 0).1 "a" = some 3 ∧
    (add_plot canvas3 "a" ["A", "B"] false 0).1.plots.length = 3 ∧
    (add_plot canvas3 "a" ["A", "B"] false 0).1.figAxes.length = 4 ∧
    (add_plot canvas3 "a" ["A", "B"] false 0).1.gs = canvas3.gs ∧
    canvas3.gs = ⟨2, 2⟩ := by
  refine ⟨rfl, rfl, ?_, rfl, rfl, rfl, rfl⟩
  rfl

/-- C8 (amended): adding with an existing name overwrites the slot's
data and leaves the slot count unchanged, but does not keep the slot's
region: every successful duplicate add binds the slot to the newly
created axes at index `len(figAxes)` — distinct from its previous
region, which stays behind in the figure. -/
theorem duplicate_add_new_region (c : Canvas) (nm : String) (cols : List String)
    (b : Bool) (t : Nat) (dh0 : DataHolder)
    (hget : dictGet c.plots nm = some dh0)
    (hidx : dh0.axIdx < c.figAxes.length)
    (hsucc : (add_plot c nm cols b t).2 = true) :
    (add_plot c nm cols b t).1.plots.length = c.plots.length ∧
    (add_plot c nm cols b t).1.figAxes.length = c.figAxes.length + 1 ∧
    dictGet (add_plot c nm cols b t).1.plots nm =
      some ⟨c.figAxes.length, cols, b, t⟩ ∧
    c.figAxes.length ≠ dh0.axIdx := by
  have hmem := dictGet_some_mem c.plots nm dh0 hget
  rcases hrender : (if b then plot_paired emptyAxes cols t
                    else plot_unpaired emptyAxes cols t) with _ | ax1
  · exfalso
    obtain ⟨h1, _, _⟩ := add_plot_fail_state c nm cols b t hrender
    rw [hsucc] at h1
    exact Bool.noConfusion h1
  · by_cases hcap : c.gs.ncols * c.gs.nrows ≥ c.plots.length + 1
    · rw [add_plot_reuse c nm cols b t ax1 hcap hrender]
      refine ⟨?_, ?_, ?_, by omega⟩
      · exact dictInsert_length_of_mem _ _ _ hmem
      · show (setAx _ _ _).length = _
        rw [setAx_length]
        simp
      · exact dictGet_insert_self _ _ _
    · rw [add_plot_adjust c nm cols b t ax1 hcap hrender]
      refine ⟨?_, ?_, ?_, by omega⟩
      · exact dictInsert_length_of_mem _ _ _ hmem
      · show (setAx _ _ _).length = _
        rw [setAx_length]
        simp [reposition_length]
      · exact dictGet_insert_self _ _ _

theorem duplicate_add_new_region_witness :
    (dictGet canvas3.plots "a" = some ⟨0, ["A", "B"], false, 0⟩ ∧
     (0 : Nat) < canvas3.figAxes.length ∧
     (add_plot canvas3 "a" ["A", "B"] false 0).2 = true) ∧
    ((add_plot canvas3 "a" ["A", "B"] false 0).1.plots.length = canvas3.plots.length ∧
     (add_plot canvas3 "a" ["A", "B"] false 0).1.figAxes.length =
       canvas3.figAxes.length + 1 ∧
     dictGet (add_plot canvas3 "a" ["A", "B"] false 0).1.plots "a" =
       some ⟨canvas3.figAxes.length, ["A", "B"], false, 0⟩ ∧
     canvas3.figAxes.length ≠ 0) :=
  ⟨⟨by decide, by decide, by decide⟩,
   duplicate_add_new_region canvas3 "a" ["A", "B"] false 0 ⟨0, ["A", "B"], false, 0⟩
     (by decide) (by decide) (by decide)⟩

/-- C9: `get_ax` and `update_plot` called with a name absent from the
slot mapping fail — the dict lookup raises (the spec's
`NotFoundError`) — and neither call changes any state of the canvas. -/
theorem unknown_name_errors (c : Canvas) (nm : String) (cols : List String)
    (h : dictGet c.plots nm = none) :
    get_ax c nm = none ∧ update_plot c nm cols = (c, false) := by
  constructor
  · rw [get_ax, h]
    rfl
  · rw [update_plot, h]

theorem unknown_name_errors_witness :
    dictGet initCanvas.plots "missing" = none ∧
    (get_ax initCanvas "missing" = none ∧
     update_plot initCanvas "missing" ["A", "B"] = (initCanvas, false)) :=
  ⟨rfl, unknown_name_errors initCanvas "missing" ["A", "B"] rfl⟩

end EasyDataCharts
